import Mathlib

/-!
Shallow embedding of the electron-configuration core of SpectroscoPyx
(`SpectroscoPy/atomic/electronConfiguration.py`).

Python machine integers are modelled as `Int` (Python ints are unbounded, so
no modular reduction is needed).  The `ValueError`s raised at construction
time are modelled by an explicit error type whose constructors follow the
error taxonomy; fallible operations return `Except ConfigError _`, and the
pandas symbol lookups that can raise `KeyError`/`IndexError` return `Option`.

Several method bodies in the source are unfinished placeholders
(`SubshellConfiguration.str2obj`, `ElectronConfiguration.__init__`,
`ElectronConfiguration.__str__`, all of `TermSymbol`); the corresponding
definitions below are marked `Modelled from the spec:` and follow the spec's
wording.
-/

/-- Error taxonomy for construction-time validation failures.  Each
constructor corresponds to a family of `ValueError`s raised by the source
(or, for the unfinished methods, to the spec's taxonomy in §7). -/
inductive ConfigError where
  | invalidQuantumNumber : ConfigError
  | occupancyExceeded : ConfigError
  | conflictingSubshell : ConfigError
  | malformedNotation : ConfigError
  | notASubshell : ConfigError
  deriving Repr, DecidableEq

/-- The decimal digit character for a digit value, as produced by Python
`str` on a nonnegative integer. -/
def digitChar (d : Nat) : Char := Char.ofNat (48 + d)

/-- `renderNatFuel fuel m` renders `m` in decimal (most significant digit
first), structurally recursing on `fuel`; `fuel > m` suffices. -/
def renderNatFuel : Nat → Nat → List Char
  | 0, _ => []
  | fuel + 1, m =>
      if m < 10 then [digitChar m]
      else renderNatFuel fuel (m / 10) ++ [digitChar (m % 10)]

/-- Decimal rendering of a natural number, as Python `str`. -/
def renderNat (m : Nat) : List Char := renderNatFuel (m + 1) m

/-- Decimal rendering of an integer, as Python `str` (a leading minus sign
for negative values). -/
def renderInt (i : Int) : List Char :=
  if i < 0 then '-' :: renderNat i.natAbs else renderNat i.toNat

/-- The `superNums` translation table of the source: each ASCII digit is
mapped to the corresponding superscript digit, every other character is
left unchanged (`str.translate` semantics). -/
def superMap (c : Char) : Char :=
  if c = '0' then '⁰' else if c = '1' then '¹' else if c = '2' then '²'
  else if c = '3' then '³' else if c = '4' then '⁴' else if c = '5' then '⁵'
  else if c = '6' then '⁶' else if c = '7' then '⁷' else if c = '8' then '⁸'
  else if c = '9' then '⁹' else c

/-- The `subNums` translation table of the source: each ASCII digit is
mapped to the corresponding subscript digit. -/
def subMap (c : Char) : Char :=
  if c = '0' then '₀' else if c = '1' then '₁' else if c = '2' then '₂'
  else if c = '3' then '₃' else if c = '4' then '₄' else if c = '5' then '₅'
  else if c = '6' then '₆' else if c = '7' then '₇' else if c = '8' then '₈'
  else if c = '9' then '₉' else c

/-- Whether a character is a plain ASCII decimal digit. -/
def isPlainDigit (c : Char) : Bool := '0' ≤ c && c ≤ '9'

/-- Numeric value of a plain digit character. -/
def plainDigitVal (c : Char) : Nat := c.toNat - 48

/-- Accumulate a decimal number from a list of plain digit characters
(most significant first), as Python `int` applied to a digit string. -/
def parseNatList (cs : List Char) : Nat :=
  cs.foldl (fun a c => 10 * a + plainDigitVal c) 0

/-- The `symbols` table of the source: subshell letters indexed by the
azimuthal quantum number (s, p, d, f, g, ... with j and s/p/d/f duplicates
skipped), 21 entries. -/
def symbols : List Char :=
  ['s', 'p', 'd', 'f', 'g', 'h', 'i', 'k', 'l', 'm', 'n',
   'o', 'q', 'r', 't', 'u', 'v', 'w', 'x', 'y', 'z']

/-- `subshellsDf['sym'][aziNum]`: positional lookup of the subshell letter.
Out-of-range indices raise in pandas, modelled by `none`. -/
def subshellSym (aziNum : Int) : Option Char :=
  if aziNum < 0 then none else symbols.get? aziNum.toNat

/-- `subshellsDf['l'][letter]`: the azimuthal quantum number of a subshell
letter, `none` when the letter is not in the table. -/
def letterIdx (c : Char) : Option Nat :=
  symbols.findIdx? (fun x => x = c)

/-- A populated atomic subshell: principal quantum number, azimuthal
quantum number and electron count, exactly the attributes assigned by
`SubshellConfiguration.__init__`. -/
structure SubshellConfiguration where
  principal : Int
  aziNum : Int
  electrons : Int
  deriving Repr, DecidableEq

/-- `SubshellConfiguration.existsSubshell`: the check that the azimuthal
quantum number exists within the principal quantum number (`l ≤ n − 1`). -/
def existsSubshell (principal aziNum : Int) : Bool :=
  aziNum ≤ principal - 1

/-- `SubshellConfiguration.subshellElectrons`: maximum number of electrons
in the subshell, `2(2l+1)`. -/
def subshellElectrons (aziNum : Int) : Int := 2 * (2 * aziNum + 1)

/-- `SubshellConfiguration.__init__`: validates the quantum numbers in
source order (`n ≥ 1`, then `l ≥ 0`, then `existsSubshell`, then the
electron-count upper bound) and assembles the object.  Note the source
never checks `electronsNum ≥ 0`. -/
def SubshellConfiguration.create (principalNum aziNum electronsNum : Int) :
    Except ConfigError SubshellConfiguration :=
  if ¬ principalNum ≥ 1 then .error .invalidQuantumNumber
  else if ¬ aziNum ≥ 0 then .error .invalidQuantumNumber
  else if ¬ existsSubshell principalNum aziNum then .error .invalidQuantumNumber
  else if electronsNum > subshellElectrons aziNum then .error .occupancyExceeded
  else .ok ⟨principalNum, aziNum, electronsNum⟩

/-- `SubshellConfiguration.n`: the principal quantum number. -/
def SubshellConfiguration.n (sc : SubshellConfiguration) : Int := sc.principal

/-- `SubshellConfiguration.l`: the azimuthal quantum number. -/
def SubshellConfiguration.l (sc : SubshellConfiguration) : Int := sc.aziNum

/-- `SubshellConfiguration.elec`: the electron count. -/
def SubshellConfiguration.elec (sc : SubshellConfiguration) : Int := sc.electrons

/-- `SubshellConfiguration.__str__`: decimal principal number, subshell
letter, electron count translated to superscript digits, concatenated.
`none` models the pandas lookup failure when the letter table has no entry
for `l`. -/
def SubshellConfiguration.toNotation (sc : SubshellConfiguration) : Option String :=
  (subshellSym sc.aziNum).map fun aziSym =>
    String.mk (renderInt sc.principal ++ [aziSym] ++ (renderInt sc.electrons).map superMap)

/-- A Python value passed as the right operand of `==`: either a
`SubshellConfiguration` or some other object. -/
inductive PyValue where
  | subshell : SubshellConfiguration → PyValue
  | other : String → PyValue
  deriving Repr, DecidableEq

/-- `SubshellConfiguration.__eq__`: raises `ValueError` when the other
operand is not a `SubshellConfiguration`, otherwise compares `n`, `l` and
`elec` pairwise. -/
def SubshellConfiguration.eqPy (sc : SubshellConfiguration) :
    PyValue → Except ConfigError Bool
  | .subshell t =>
      .ok (decide (sc.n = t.n) && decide (sc.l = t.l) && decide (sc.elec = t.elec))
  | .other _ => .error .notASubshell

/-- Value of an electron-count digit: a plain ASCII digit or a superscript
digit (the spec recommends accepting both forms on input). -/
def countDigitVal (c : Char) : Option Nat :=
  if isPlainDigit c then some (plainDigitVal c)
  else if c = '⁰' then some 0 else if c = '¹' then some 1
  else if c = '²' then some 2 else if c = '³' then some 3
  else if c = '⁴' then some 4 else if c = '⁵' then some 5
  else if c = '⁶' then some 6 else if c = '⁷' then some 7
  else if c = '⁸' then some 8 else if c = '⁹' then some 9 else none

/-- Accumulate the electron count from its digit characters; `none` when a
character is not a digit of either form. -/
def parseCountAux : List Char → Nat → Option Nat
  | [], acc => some acc
  | c :: rest, acc =>
    match countDigitVal c with
    | some d => parseCountAux rest (10 * acc + d)
    | none => none

/-- Parse a nonempty electron-count digit group (plain or superscript). -/
def parseCountDigits : List Char → Option Nat
  | [] => none
  | cs => parseCountAux cs 0

/-- Modelled from the spec: `SubshellConfiguration.str2obj` is an
unfinished placeholder in the source, so the token grammar
`<digits><letter><digits>` of §4.2/§6 is modelled here: a nonempty plain
decimal principal part, one subshell letter from the table, and a nonempty
electron-count digit group accepted in plain or superscript form; fails
with `MalformedNotation` when the pattern does not match and otherwise
feeds the pieces to `create`, propagating its validation errors. -/
def SubshellConfiguration.fromNotation (s : String) :
    Except ConfigError SubshellConfiguration :=
  let cs := s.data
  let ds := cs.takeWhile isPlainDigit
  match cs.dropWhile isPlainDigit with
  | [] => .error .malformedNotation
  | c :: rest =>
    match letterIdx c with
    | none => .error .malformedNotation
    | some li =>
      if ds.isEmpty then .error .malformedNotation
      else
        match parseCountDigits rest with
        | none => .error .malformedNotation
        | some e => SubshellConfiguration.create (parseNatList ds) li e

/-- The `(n, l)` pair that keys a subshell inside a configuration. -/
def subshellKey (sc : SubshellConfiguration) : Int × Int :=
  (sc.principal, sc.aziNum)

/-- Whether some two entries of the list share the same `(n, l)` pair. -/
def hasConflict : List SubshellConfiguration → Bool
  | [] => false
  | sc :: rest =>
      rest.any (fun t => subshellKey t = subshellKey sc) || hasConflict rest

/-- The canonical order on subshells: ascending principal quantum number,
then ascending azimuthal quantum number, with the electron count as a
final tiebreak to make the relation antisymmetric (entries of a
conflict-free configuration never tie on `(n, l)`). -/
def subshellLe (a b : SubshellConfiguration) : Prop :=
  a.principal < b.principal ∨
    (a.principal = b.principal ∧
      (a.aziNum < b.aziNum ∨ (a.aziNum = b.aziNum ∧ a.electrons ≤ b.electrons)))

instance : DecidableRel subshellLe := fun a b => by
  unfold subshellLe; infer_instance

instance : IsTotal SubshellConfiguration subshellLe :=
  ⟨fun a b => by unfold subshellLe; omega⟩

instance : IsTrans SubshellConfiguration subshellLe :=
  ⟨fun a b c hab hbc => by
    obtain ⟨ap, aa, ae⟩ := a
    obtain ⟨bp, ba, be⟩ := b
    obtain ⟨cp, ca, ce⟩ := c
    simp only [subshellLe] at hab hbc ⊢
    omega⟩

instance : IsAntisymm SubshellConfiguration subshellLe :=
  ⟨fun a b hab hba => by
    obtain ⟨ap, aa, ae⟩ := a
    obtain ⟨bp, ba, be⟩ := b
    simp only [subshellLe] at hab hba
    simp only [SubshellConfiguration.mk.injEq]
    omega⟩

/-- An electron configuration: the ordered list of stored subshells. -/
structure ElectronConfiguration where
  subshells : List SubshellConfiguration
  deriving Repr, DecidableEq

/-- Modelled from the spec: `ElectronConfiguration.__init__` is an
unfinished placeholder in the source (only its commented outline exists),
so §4.3 is modelled: fail with `ConflictingSubshell` when two input
entries share `(n, l)`, drop entries with zero electrons, and store the
rest sorted into canonical order. -/
def ElectronConfiguration.create (subshells : List SubshellConfiguration) :
    Except ConfigError ElectronConfiguration :=
  if hasConflict subshells then .error .conflictingSubshell
  else .ok ⟨(subshells.filter (fun sc => sc.electrons != 0)).insertionSort subshellLe⟩

/-- `ElectronConfiguration.empty`: the zero-subshell configuration
representing a fully ionized particle. -/
def ElectronConfiguration.empty : ElectronConfiguration := ⟨[]⟩

/-- `ElectronConfiguration.__bool__`: true exactly when at least one
subshell is stored. -/
def ElectronConfiguration.toBool (ec : ElectronConfiguration) : Bool :=
  !ec.subshells.isEmpty

/-- `isIonized` (spec §4.3): true iff the subshell sequence is empty; the
source exposes this as falsiness via `__bool__`. -/
def ElectronConfiguration.isIonized (ec : ElectronConfiguration) : Bool :=
  ec.subshells.isEmpty

/-- Modelled from the spec: `ElectronConfiguration.__str__` is an
unfinished placeholder in the source, so §4.3 is modelled: each stored
entry's notation joined with no separator, in stored order; `none` when
some entry's own notation fails. -/
def ElectronConfiguration.toNotation (ec : ElectronConfiguration) : Option String :=
  (ec.subshells.mapM SubshellConfiguration.toNotation).map
    (fun parts => parts.foldl (· ++ ·) "")

/-- A term symbol: multiplicity, the azimuthal quantum number giving the
orbital letter, and twice the total angular momentum `J` when it is
determined (`none` marks the unresolved multi-subshell case). -/
structure TermSymbol where
  multiplicity : Int
  aziNum : Int
  j2 : Option Int
  deriving Repr, DecidableEq

/-- Modelled from the spec: the `TermSymbol` class body is empty in the
source, so §4.4 is modelled: the unpaired-electron count is `e` when
`e ≤ 2l+1` and `2(2l+1) − e` otherwise. -/
def unpairedElectrons (sc : SubshellConfiguration) : Int :=
  if sc.electrons ≤ 2 * sc.aziNum + 1 then sc.electrons
  else 2 * (2 * sc.aziNum + 1) - sc.electrons

/-- Modelled from the spec: `TermSymbol.fromSubshell` of §4.4 — the
multiplicity is the unpaired-electron count plus one, the orbital letter
is the subshell's own letter, and `J = S` (`j2 = u`) when `l = 0`,
unresolved otherwise. -/
def TermSymbol.fromSubshell (sc : SubshellConfiguration) : TermSymbol :=
  let u := unpairedElectrons sc
  ⟨u + 1, sc.aziNum, if sc.aziNum = 0 then some u else none⟩

/-- Modelled from the spec: term-symbol rendering of §4.4/§6 — superscript
multiplicity, uppercase orbital letter, and `J` in subscript digits (a
half-integer as a subscript fraction), with `?` marking an unresolved `J`. -/
def TermSymbol.toNotation (t : TermSymbol) : Option String :=
  (subshellSym t.aziNum).map fun sym =>
    String.mk ((renderInt t.multiplicity).map superMap ++ [sym.toUpper] ++
      (match t.j2 with
       | some v =>
           if v % 2 = 0 then (renderInt (v / 2)).map subMap
           else (renderInt v).map subMap ++ ['/', '₂']
       | none => ['?']))

/-- An energy level: one electron configuration and one term symbol, as
assigned by `EnergyLevel.__init__`. -/
structure EnergyLevel where
  electronConfiguration : ElectronConfiguration
  termSymbol : TermSymbol
  deriving Repr, DecidableEq

/-- `EnergyLevel.__init__`: stores the two parts, no further validation. -/
def EnergyLevel.create (ec : ElectronConfiguration) (t : TermSymbol) : EnergyLevel :=
  ⟨ec, t⟩

/-- `EnergyLevel.configuration`: the stored electron configuration. -/
def EnergyLevel.configuration (el : EnergyLevel) : ElectronConfiguration :=
  el.electronConfiguration

/-- `EnergyLevel.term`: the stored term symbol. -/
def EnergyLevel.term (el : EnergyLevel) : TermSymbol :=
  el.termSymbol

/-- `EnergyLevel.__str__`: the configuration's notation, one space, the
term symbol's notation. -/
def EnergyLevel.toNotation (el : EnergyLevel) : Option String := do
  let configStr ← el.electronConfiguration.toNotation
  let termStr ← el.termSymbol.toNotation
  pure (configStr ++ " " ++ termStr)

theorem digitChar_val : ∀ d, d < 10 → plainDigitVal (digitChar d) = d := by decide

theorem digitChar_plain : ∀ d, d < 10 → isPlainDigit (digitChar d) = true := by decide

theorem superMap_digitChar_not_plain :
    ∀ d, d < 10 → isPlainDigit (superMap (digitChar d)) = false := by decide

theorem countDigitVal_superMap :
    ∀ d, d < 10 → countDigitVal (superMap (digitChar d)) = some d := by decide

theorem symbols_not_plain : ∀ c ∈ symbols, isPlainDigit c = false := by decide

theorem renderNatFuel_shape :
    ∀ fuel m, m < fuel → ∀ c ∈ renderNatFuel fuel m, ∃ d, d < 10 ∧ c = digitChar d := by
  intro fuel
  induction fuel with
  | zero => intro m h; omega
  | succ f ih =>
    intro m hm c hc
    unfold renderNatFuel at hc
    by_cases h10 : m < 10
    · simp only [if_pos h10, List.mem_singleton] at hc
      exact ⟨m, h10, hc⟩
    · simp only [if_neg h10, List.mem_append, List.mem_singleton] at hc
      rcases hc with hc | hc
      · exact ih (m / 10) (by omega) c hc
      · exact ⟨m % 10, by omega, hc⟩

theorem renderNatFuel_ne_nil : ∀ fuel m, m < fuel → renderNatFuel fuel m ≠ [] := by
  intro fuel m hm
  cases fuel with
  | zero => omega
  | succ f =>
    unfold renderNatFuel
    by_cases h10 : m < 10 <;> simp [h10]

theorem parse_renderNatFuel :
    ∀ fuel m, m < fuel → parseNatList (renderNatFuel fuel m) = m := by
  intro fuel
  induction fuel with
  | zero => intro m h; omega
  | succ f ih =>
    intro m hm
    unfold renderNatFuel
    by_cases h10 : m < 10
    · simp only [if_pos h10]
      simp [parseNatList, digitChar_val m h10]
    · simp only [if_neg h10]
      have hrec := ih (m / 10) (by omega)
      simp only [parseNatList] at hrec ⊢
      rw [List.foldl_append, hrec]
      simp only [List.foldl_cons, List.foldl_nil]
      rw [digitChar_val (m % 10) (by omega)]
      omega

theorem renderNat_shape (m : Nat) : ∀ c ∈ renderNat m, ∃ d, d < 10 ∧ c = digitChar d :=
  renderNatFuel_shape (m + 1) m (Nat.lt_succ_self m)

theorem renderNat_ne_nil (m : Nat) : renderNat m ≠ [] :=
  renderNatFuel_ne_nil (m + 1) m (Nat.lt_succ_self m)

theorem parse_renderNat (m : Nat) : parseNatList (renderNat m) = m :=
  parse_renderNatFuel (m + 1) m (Nat.lt_succ_self m)

theorem renderNat_all_plain (m : Nat) : ∀ c ∈ renderNat m, isPlainDigit c = true := by
  intro c hc
  obtain ⟨d, hd, rfl⟩ := renderNat_shape m c hc
  exact digitChar_plain d hd

theorem takeWhile_all_append {p : Char → Bool} {as : List Char} (b : Char) (bs : List Char)
    (h : ∀ c ∈ as, p c = true) (hb : p b = false) :
    (as ++ b :: bs).takeWhile p = as := by
  induction as with
  | nil => simp [List.takeWhile_cons, hb]
  | cons a t ih =>
    have ha := h a (List.mem_cons_self a t)
    simp only [List.cons_append, List.takeWhile_cons, ha, if_true]
    rw [ih (fun c hc => h c (List.mem_cons_of_mem a hc))]

theorem dropWhile_all_append {p : Char → Bool} {as : List Char} (b : Char) (bs : List Char)
    (h : ∀ c ∈ as, p c = true) (hb : p b = false) :
    (as ++ b :: bs).dropWhile p = b :: bs := by
  induction as with
  | nil => simp [List.dropWhile_cons, hb]
  | cons a t ih =>
    have ha := h a (List.mem_cons_self a t)
    simp only [List.cons_append, List.dropWhile_cons, ha, if_true]
    exact ih (fun c hc => h c (List.mem_cons_of_mem a hc))

theorem parseCountAux_superMap :
    ∀ (cs : List Char), (∀ c ∈ cs, ∃ d, d < 10 ∧ c = digitChar d) →
      ∀ acc, parseCountAux (cs.map superMap) acc =
        some (cs.foldl (fun a c => 10 * a + plainDigitVal c) acc) := by
  intro cs
  induction cs with
  | nil => intro _ acc; rfl
  | cons c t ih =>
    intro h acc
    obtain ⟨d, hd, rfl⟩ := h (c := c) (List.mem_cons_self c t)
    simp only [List.map_cons, List.foldl_cons, parseCountAux,
      countDigitVal_superMap d hd, digitChar_val d hd]
    exact ih (fun x hx => h x (List.mem_cons_of_mem _ hx)) _

theorem parseCountDigits_superMap (cs : List Char) (hne : cs ≠ [])
    (h : ∀ c ∈ cs, ∃ d, d < 10 ∧ c = digitChar d) :
    parseCountDigits (cs.map superMap) = some (parseNatList cs) := by
  cases cs with
  | nil => exact absurd rfl hne
  | cons c t =>
    rw [List.map_cons]
    have : parseCountDigits (superMap c :: t.map superMap) =
        parseCountAux (superMap c :: t.map superMap) 0 := rfl
    rw [this]
    have := parseCountAux_superMap (c :: t) h 0
    rw [List.map_cons] at this
    rw [this]
    rfl

theorem letterIdx_get? (i : Nat) (c : Char) (h : symbols.get? i = some c) :
    letterIdx c = some i := by
  have hlen : i < symbols.length := by
    by_contra hge
    rw [List.get?_eq_none.mpr (by omega)] at h
    exact Option.noConfusion h
  have h21 : i < 21 := by simpa [symbols] using hlen
  interval_cases i <;> (simp [symbols] at h; subst h; rfl)

theorem create_ok_fields {n l e : Int} {sc : SubshellConfiguration}
    (hc : SubshellConfiguration.create n l e = .ok sc) :
    sc = ⟨n, l, e⟩ ∧ 1 ≤ n ∧ 0 ≤ l ∧ l ≤ n - 1 ∧ e ≤ subshellElectrons l := by
  unfold SubshellConfiguration.create at hc
  split_ifs at hc with h1 h2 h3 h4
  injection hc with h
  simp only [existsSubshell, decide_eq_true_eq] at h3
  exact ⟨h.symm, by omega, by omega, by omega, by omega⟩

/-- C1: for every valid triple `(n, l, e)` (with `1 ≤ n`, `0 ≤ l ≤ n−1`,
`0 ≤ e ≤ 2(2l+1)`, the range on which `create` succeeds), parsing the
notation string produced by `toNotation` on `create n l e` with
`fromNotation` yields a `SubshellConfiguration` structurally equal to
`create n l e`. -/
theorem subshell_notation_roundtrip (n l e : Int) (sc : SubshellConfiguration) (s : String)
    (he : 0 ≤ e) (hc : SubshellConfiguration.create n l e = .ok sc)
    (ht : sc.toNotation = some s) :
    SubshellConfiguration.fromNotation s = .ok sc := by
  obtain ⟨hsc, hn, hl, hln, hcap⟩ := create_ok_fields hc
  subst hsc
  unfold SubshellConfiguration.toNotation subshellSym at ht
  rw [if_neg (by omega : ¬ (l < 0))] at ht
  obtain ⟨sym, hsym, hs⟩ := Option.map_eq_some'.mp ht
  subst hs
  have hrn : renderInt n = renderNat n.toNat := by unfold renderInt; rw [if_neg (by omega)]
  have hre : renderInt e = renderNat e.toNat := by unfold renderInt; rw [if_neg (by omega)]
  have hsymMem : sym ∈ symbols := List.get?_mem hsym
  have hsymNotDigit : isPlainDigit sym = false := symbols_not_plain sym hsymMem
  have hlist : renderNat n.toNat ++ [sym] ++ (renderNat e.toNat).map superMap =
      renderNat n.toNat ++ sym :: (renderNat e.toNat).map superMap := by
    rw [List.append_assoc]; rfl
  have hne : (renderNat n.toNat).isEmpty = false := by
    simp [List.isEmpty_iff, renderNat_ne_nil]
  simp only [SubshellConfiguration.fromNotation, hrn, hre, hlist,
    takeWhile_all_append sym _ (renderNat_all_plain n.toNat) hsymNotDigit,
    dropWhile_all_append sym _ (renderNat_all_plain n.toNat) hsymNotDigit,
    letterIdx_get? l.toNat sym hsym, hne,
    parseCountDigits_superMap (renderNat e.toNat) (renderNat_ne_nil _) (renderNat_shape _),
    parse_renderNat, Bool.false_eq_true, if_false,
    Int.toNat_of_nonneg (by omega : (0:Int) ≤ n), Int.toNat_of_nonneg hl,
    Int.toNat_of_nonneg he]
  exact hc

/-- Witness for C1 at `(n, l, e) = (2, 1, 5)`: the rendered token `2p⁵`
parses back to the same subshell. -/
theorem subshell_notation_roundtrip_witness :
    SubshellConfiguration.fromNotation "2p⁵" = .ok ⟨2, 1, 5⟩ :=
  subshell_notation_roundtrip 2 1 5 ⟨2, 1, 5⟩ "2p⁵" (by decide) (by rfl) (by rfl)

/-- C2: the source checks only the occupancy upper bound.  `create 2 1 7`
(capacity 6) fails as claimed, but `create 1 0 (−1)` constructs a subshell
with a negative electron count rather than failing: the `e < 0` half of the
claim is not enforced by the code. -/
theorem subshell_create_negative_accepted :
    SubshellConfiguration.create 1 0 (-1) = .ok ⟨1, 0, -1⟩ ∧
    SubshellConfiguration.create 2 1 7 = .error .occupancyExceeded := by
  exact ⟨rfl, rfl⟩

/-- C3: `create n l e` fails with `InvalidQuantumNumber` if and only if
`n < 1` or `l < 0` or `l > n − 1`; in particular `create 1 1 e` fails for
every `e`. -/
theorem subshell_create_invalid_quantum_iff :
    (∀ n l e : Int,
      SubshellConfiguration.create n l e = .error .invalidQuantumNumber ↔
        (n < 1 ∨ l < 0 ∨ l > n - 1)) ∧
    (∀ e : Int, SubshellConfiguration.create 1 1 e = .error .invalidQuantumNumber) := by
  constructor
  · intro n l e
    unfold SubshellConfiguration.create
    split_ifs with h1 h2 h3 h4 <;> simp_all [existsSubshell]
  · intro e
    rfl

/-- Witness for C3 at `(n, l, e) = (1, 1, 0)`: `l > n − 1`, so construction
fails with `InvalidQuantumNumber`. -/
theorem subshell_create_invalid_quantum_witness :
    SubshellConfiguration.create 1 1 0 = .error .invalidQuantumNumber :=
  (subshell_create_invalid_quantum_iff.1 1 1 0).mpr (by omega)

/-- C4 counterexample: `(n, l, e) = (23, 22, 0)` is a valid triple
(`l ≤ n − 1`, `e ≤ 2(2l+1)`), yet `toNotation` produces no string because
the 21-entry letter table has no symbol for `l = 22`. -/
theorem subshell_toNotation_22_none :
    SubshellConfiguration.create 23 22 0 = .ok ⟨23, 22, 0⟩ ∧
    SubshellConfiguration.toNotation ⟨23, 22, 0⟩ = none := ⟨rfl, rfl⟩

/-- C4 (amended): for every valid `SubshellConfiguration` whose `l` lies
within the 21-letter table (`l ≤ 20`), `toNotation` returns the decimal
rendering of `n`, the subshell letter for `l`, and `e` rendered with
superscript digits, concatenated; in particular `(2, 1, 5)` renders as
`2p⁵`. -/
theorem subshell_toNotation_concat :
    (∀ (n l e : Int) (sc : SubshellConfiguration),
      SubshellConfiguration.create n l e = .ok sc → l ≤ 20 →
      ∃ sym, subshellSym l = some sym ∧
        sc.toNotation =
          some (String.mk (renderInt n ++ [sym] ++ (renderInt e).map superMap))) ∧
    SubshellConfiguration.toNotation ⟨2, 1, 5⟩ = some "2p⁵" := by
  constructor
  · intro n l e sc hc hl20
    obtain ⟨hsc, hn, hl, hln, hcap⟩ := create_ok_fields hc
    subst hsc
    have hlt : l.toNat < symbols.length := by
      simp only [symbols, List.length]
      omega
    refine ⟨symbols.get ⟨l.toNat, hlt⟩, ?_, ?_⟩
    · unfold subshellSym
      rw [if_neg (by omega : ¬ (l < 0))]
      exact List.get?_eq_get hlt
    · simp only [SubshellConfiguration.toNotation, subshellSym]
      rw [if_neg (by omega : ¬ (l < 0)), List.get?_eq_get hlt, Option.map_some']
  · rfl

/-- Witness for C4 at `(n, l, e) = (2, 1, 5)`. -/
theorem subshell_toNotation_concat_witness :
    ∃ sym, subshellSym 1 = some sym ∧
      SubshellConfiguration.toNotation ⟨2, 1, 5⟩ =
        some (String.mk (renderInt 2 ++ [sym] ++ (renderInt 5).map superMap)) :=
  subshell_toNotation_concat.1 2 1 5 ⟨2, 1, 5⟩ (by rfl) (by decide)

theorem hasConflict_eq_false_iff (xs : List SubshellConfiguration) :
    hasConflict xs = false ↔
      xs.Pairwise (fun a b => subshellKey a ≠ subshellKey b) := by
  induction xs with
  | nil => simp [hasConflict]
  | cons s t ih =>
    simp only [hasConflict, Bool.or_eq_false_iff, ih, List.pairwise_cons,
      List.any_eq_false]
    constructor
    · rintro ⟨h1, h2⟩
      refine ⟨fun b hb => ?_, h2⟩
      have hb' := h1 b hb
      simp only [decide_eq_true_eq] at hb'
      exact fun h => hb' h.symm
    · rintro ⟨h1, h2⟩
      refine ⟨fun b hb => ?_, h2⟩
      simp only [decide_eq_true_eq]
      exact fun h => h1 b hb h.symm

/-- C5: `ElectronConfiguration.create` fails with `ConflictingSubshell`
whenever two entries of the input list share the same `(n, l)` pair,
whatever their electron counts; no configuration is constructed then. -/
theorem electronConfiguration_create_conflict :
    ∀ (xs : List SubshellConfiguration) (i j : Fin xs.length),
      i ≠ j → subshellKey (xs.get i) = subshellKey (xs.get j) →
      ElectronConfiguration.create xs = .error .conflictingSubshell := by
  intro xs i j hij hkey
  have hcf : hasConflict xs = true := by
    by_contra h
    have h' : hasConflict xs = false := by
      cases hx : hasConflict xs
      · rfl
      · exact absurd hx h
    have hp := List.pairwise_iff_get.mp ((hasConflict_eq_false_iff xs).mp h')
    rcases lt_trichotomy i j with hlt | heq | hgt
    · exact hp i j hlt hkey
    · exact hij heq
    · exact hp j i hgt hkey.symm
  unfold ElectronConfiguration.create
  rw [if_pos hcf]

/-- Witness for C5: two entries keyed `(2, 0)` with different electron
counts are rejected. -/
theorem electronConfiguration_create_conflict_witness :
    ElectronConfiguration.create [⟨2, 0, 1⟩, ⟨2, 0, 2⟩] = .error .conflictingSubshell :=
  electronConfiguration_create_conflict [⟨2, 0, 1⟩, ⟨2, 0, 2⟩]
    ⟨0, by decide⟩ ⟨1, by decide⟩ (by decide) (by decide)

/-- C6: for every conflict-free input list the constructed configuration
stores the dropped-zero entries sorted ascending by `n` then `l`
(`subshellLe`), the stored list is a permutation of the nonzero input
entries, and the result is independent of input order; the example
`[2p⁵, 1s²]` renders as `1s²2p⁵`. -/
theorem electronConfiguration_canonical :
    (∀ xs : List SubshellConfiguration, hasConflict xs = false →
      ∃ ec : ElectronConfiguration,
        ElectronConfiguration.create xs = .ok ec ∧
        List.Sorted subshellLe ec.subshells ∧
        ec.subshells.Perm (xs.filter (fun sc => sc.electrons != 0)) ∧
        (∀ ys : List SubshellConfiguration, ys.Perm xs →
          ElectronConfiguration.create ys = .ok ec)) ∧
    (∃ ec : ElectronConfiguration,
      ElectronConfiguration.create [⟨2, 1, 5⟩, ⟨1, 0, 2⟩] = .ok ec ∧
      ec.toNotation = some "1s²2p⁵") := by
  constructor
  · intro xs hcf
    refine ⟨⟨(xs.filter (fun sc => sc.electrons != 0)).insertionSort subshellLe⟩,
      ?_, ?_, ?_, ?_⟩
    · unfold ElectronConfiguration.create
      rw [if_neg (by simp [hcf])]
    · exact List.sorted_insertionSort subshellLe _
    · exact List.perm_insertionSort subshellLe _
    · intro ys hys
      have hcfy : hasConflict ys = false := by
        rw [hasConflict_eq_false_iff] at hcf ⊢
        exact (hys.pairwise_iff (fun hxy hba => hxy hba.symm)).mpr hcf
      unfold ElectronConfiguration.create
      rw [if_neg (by simp [hcfy])]
      have hsortEq :
          (ys.filter (fun sc => sc.electrons != 0)).insertionSort subshellLe =
          (xs.filter (fun sc => sc.electrons != 0)).insertionSort subshellLe :=
        List.eq_of_perm_of_sorted
          ((List.perm_insertionSort _ _).trans
            ((hys.filter _).trans (List.perm_insertionSort _ _).symm))
          (List.sorted_insertionSort _ _) (List.sorted_insertionSort _ _)
      rw [hsortEq]
  · exact ⟨⟨[⟨1, 0, 2⟩, ⟨2, 1, 5⟩]⟩, rfl, rfl⟩

/-- Witness for C6 at the spec's example input `[2p⁵, 1s²]`. -/
theorem electronConfiguration_canonical_witness :
    ∃ ec : ElectronConfiguration,
      ElectronConfiguration.create [⟨2, 1, 5⟩, ⟨1, 0, 2⟩] = .ok ec ∧
      List.Sorted subshellLe ec.subshells ∧
      ec.subshells.Perm
        (([⟨2, 1, 5⟩, ⟨1, 0, 2⟩] : List SubshellConfiguration).filter
          (fun sc => sc.electrons != 0)) ∧
      (∀ ys : List SubshellConfiguration,
        ys.Perm [⟨2, 1, 5⟩, ⟨1, 0, 2⟩] →
        ElectronConfiguration.create ys = .ok ec) :=
  electronConfiguration_canonical.1 [⟨2, 1, 5⟩, ⟨1, 0, 2⟩] (by rfl)

/-- C7: the empty configuration (built by `empty()` through the
constructor) is ionized and renders as the empty string. -/
theorem electronConfiguration_empty_props :
    ElectronConfiguration.create [] = .ok ElectronConfiguration.empty ∧
    ElectronConfiguration.empty.isIonized = true ∧
    ElectronConfiguration.empty.toNotation = some "" := ⟨rfl, rfl, rfl⟩

/-- C8: for every constructed subshell, the unpaired-electron count is `e`
when `e ≤ 2l+1` and `2(2l+1) − e` otherwise, and the multiplicity is that
count plus one; for `(2, 1, 5)` this gives `u = 1` and multiplicity 2. -/
theorem termSymbol_fromSubshell_multiplicity :
    (∀ (n l e : Int) (sc : SubshellConfiguration),
      SubshellConfiguration.create n l e = .ok sc →
      unpairedElectrons sc = (if e ≤ 2 * l + 1 then e else 2 * (2 * l + 1) - e) ∧
      (TermSymbol.fromSubshell sc).multiplicity = unpairedElectrons sc + 1) ∧
    (unpairedElectrons ⟨2, 1, 5⟩ = 1 ∧
      (TermSymbol.fromSubshell ⟨2, 1, 5⟩).multiplicity = 2) := by
  constructor
  · intro n l e sc hc
    obtain ⟨hsc, -, -, -, -⟩ := create_ok_fields hc
    subst hsc
    exact ⟨rfl, rfl⟩
  · exact ⟨rfl, rfl⟩

/-- Witness for C8 at `(n, l, e) = (2, 1, 5)`. -/
theorem termSymbol_fromSubshell_witness :
    unpairedElectrons ⟨2, 1, 5⟩ =
      (if (5 : Int) ≤ 2 * 1 + 1 then 5 else 2 * (2 * 1 + 1) - 5) ∧
    (TermSymbol.fromSubshell ⟨2, 1, 5⟩).multiplicity = unpairedElectrons ⟨2, 1, 5⟩ + 1 :=
  termSymbol_fromSubshell_multiplicity.1 2 1 5 ⟨2, 1, 5⟩ (by rfl)

/-- C9: an energy level renders as the configuration's notation, one
space, the term symbol's notation, and the two accessors return exactly
the parts it was constructed with. -/
theorem energyLevel_notation_accessors :
    ∀ (ec : ElectronConfiguration) (t : TermSymbol) (cs ts : String),
      ec.toNotation = some cs → t.toNotation = some ts →
      (EnergyLevel.create ec t).toNotation = some (cs ++ " " ++ ts) ∧
      (EnergyLevel.create ec t).configuration = ec ∧
      (EnergyLevel.create ec t).term = t := by
  intro ec t cs ts hec ht
  refine ⟨?_, rfl, rfl⟩
  simp [EnergyLevel.toNotation, EnergyLevel.create, hec, ht]

/-- Witness for C9: the empty configuration paired with the term symbol of
`1s¹`. -/
theorem energyLevel_notation_witness :
    (EnergyLevel.create ElectronConfiguration.empty
        (TermSymbol.fromSubshell ⟨1, 0, 1⟩)).toNotation =
      some ("" ++ " " ++ "²S₁/₂") ∧
    (EnergyLevel.create ElectronConfiguration.empty
        (TermSymbol.fromSubshell ⟨1, 0, 1⟩)).configuration =
      ElectronConfiguration.empty ∧
    (EnergyLevel.create ElectronConfiguration.empty
        (TermSymbol.fromSubshell ⟨1, 0, 1⟩)).term =
      TermSymbol.fromSubshell ⟨1, 0, 1⟩ :=
  energyLevel_notation_accessors ElectronConfiguration.empty
    (TermSymbol.fromSubshell ⟨1, 0, 1⟩) "" "²S₁/₂" (by rfl) (by rfl)

/-- C10: comparing a subshell against a non-subshell value raises rather
than returning false; between subshells, equality holds iff `n`, `l` and
`elec` are pairwise equal. -/
theorem subshell_eqPy_typed :
    (∀ (sc : SubshellConfiguration) (v : PyValue),
      (∀ t, v ≠ PyValue.subshell t) →
      SubshellConfiguration.eqPy sc v = .error .notASubshell) ∧
    (∀ sc t : SubshellConfiguration,
      SubshellConfiguration.eqPy sc (PyValue.subshell t) = .ok true ↔
        (sc.n = t.n ∧ sc.l = t.l ∧ sc.elec = t.elec)) := by
  constructor
  · intro sc v hv
    cases v with
    | subshell t => exact absurd rfl (hv t)
    | other s => rfl
  · intro sc t
    simp [SubshellConfiguration.eqPy, Bool.and_eq_true, decide_eq_true_eq, and_assoc]

/-- Witness for C10: comparing against a plain string value raises. -/
theorem subshell_eqPy_witness :
    SubshellConfiguration.eqPy ⟨1, 0, 0⟩ (PyValue.other "someString") =
      .error .notASubshell :=
  subshell_eqPy_typed.1 ⟨1, 0, 0⟩ (PyValue.other "someString")
    (fun _ h => PyValue.noConfusion h)
